import Mathlib

/-!
Shallow embedding of a CHIP-8 style emulator core (`src/src/emulator.rs`).

Machine integers are modelled as `Nat` with explicit reduction modulo
`2^8` / `2^16` exactly where the Rust code performs wrapping arithmetic.
Rust operations that can abort the process (out-of-bounds slice indexing,
or arithmetic that overflows a fixed-width integer where the source uses a
plain `+=` / `-=`) are modelled as follows: unchecked indexing becomes an
`Option`-returning access where `none` models the Rust index-out-of-bounds
abort; the plain `+=` on the 16-bit program counter and address register is
modelled with wraparound modulo `2^16` (release-mode semantics), and the
plain `-=` on the 8-bit timers with wraparound modulo `2^8` (in a debug
build the same operation aborts; either way the result is not a clamp).
The `VecDeque` call stack used with `push_front` / `pop_front` is a LIFO
list whose head is the most recently pushed address.
-/

namespace Alvin

/-- The fixed instruction width in bytes (`WORD_SIZE` in the source). -/
def WORD_SIZE : Nat := 2

/-- Machine state: mirrors Rust `struct System` field by field (the
wall-clock `last_tick : Instant` is replaced by passing the elapsed
seconds to `tick` explicitly, as the spec's injected-clock strategy
describes). -/
structure System where
  memory : List Nat
  registers : List Nat
  address_register : Nat
  stack : List Nat
  delay_timer : Nat
  sound_timer : Nat
  program_counter : Nat
deriving DecidableEq

/-- The decoded instruction type, mirroring the Rust `Opcode` enum
consumed by `process_opcode`. -/
inductive Opcode where
  | Call (address : Nat)
  | Clear
  | Return
  | Goto (address : Nat)
  | CallFunction (address : Nat)
  | SkipEq (register constant : Nat)
  | SkipNEq (register constant : Nat)
  | SkipEqReg (first second : Nat)
  | Set (register constant : Nat)
  | AddAssign (register constant : Nat)
  | Copy (toReg fromReg : Nat)
  | Or (first second : Nat)
  | And (first second : Nat)
  | Xor (first second : Nat)
  | AddAssignReg (first second : Nat)
  | SubAssignReg (first second : Nat)
  | ShiftRight (first second : Nat)
  | Subtract (first second : Nat)
  | ShiftLeft (first second : Nat)
  | SkipNEqReg (first second : Nat)
  | SetAddressReg (address : Nat)
  | JumpOffset (constant : Nat)
  | SetRand (register constant : Nat)
  | Draw (first second constant : Nat)
  | SkipKeyPress (register : Nat)
  | SkipNoKeyPress (register : Nat)
  | StoreDelayTimer (register : Nat)
  | StoreKeypress (register : Nat)
  | SetDelayTimer (register : Nat)
  | SetSoundTimer (register : Nat)
  | IncrementAddressReg (register : Nat)
  | StoreSpriteAddress (register : Nat)
  | BinaryCodedDecimal (register : Nat)
  | Dump (register : Nat)
  | Load (register : Nat)
deriving DecidableEq

/-- 8-bit wraparound (`wrapping_add`, the value part of `overflowing_add`,
and `u8` shifts). -/
def wrap8 (n : Nat) : Nat := n % 256

/-- 16-bit wraparound for the `u16` program counter and address register. -/
def wrap16 (n : Nat) : Nat := n % 65536

/-- The value part of Rust `u8::overflowing_sub x y` (two's-complement
wraparound subtraction). -/
def sub8 (x y : Nat) : Nat := (x % 256 + (256 - y % 256)) % 256

/-- The carry flag of `u8::overflowing_add`. -/
def carry8 (x y : Nat) : Bool := 256 ≤ x % 256 + y % 256

/-- The borrow flag of `u8::overflowing_sub`. -/
def borrow8 (x y : Nat) : Bool := x % 256 < y % 256

/-- Rust `fn get_register(&self, register) -> Constant`:
`self.registers[register as usize]`, an unchecked index; `none` models the
out-of-bounds abort when `register ≥ 16`. -/
def get_register (s : System) (register : Nat) : Option Nat :=
  s.registers.get? register

/-- Rust `fn set_register(&mut self, register, value)`:
`self.registers[register as usize] = value`, an unchecked index; `none`
models the out-of-bounds abort when `register ≥ 16`. -/
def set_register (s : System) (register value : Nat) : Option System :=
  if register < s.registers.length then
    some { s with registers := s.registers.set register value }
  else
    none

/-- Rust `fn set_flag_register(&mut self, value)`: `self.registers[15] = value`
(always in bounds for the 16-entry register file). -/
def set_flag_register (s : System) (value : Nat) : System :=
  { s with registers := s.registers.set 15 value }

/-- The body of the program-loading `for` loop in `System::new`: write the
program bytes one at a time starting at `currentAddress`, stopping early
when the write address reaches `0xEA0`. -/
def writeProgram (memory : List Nat) (currentAddress : Nat) :
    List Nat → List Nat
  | [] => memory
  | byte :: rest =>
    if currentAddress = 0xEA0 then
      memory
    else
      writeProgram (memory.set currentAddress byte) (currentAddress + 1) rest

/-- Rust `System::new(program)`: zeroed 4096-byte memory with the program
copied from `0x200` (truncated at `0xEA0`), zeroed registers and timers,
address register `0`, empty stack, program counter `0x200`. -/
def System.new (program : List Nat) : System :=
  { memory := writeProgram (List.replicate 4096 0) 0x200 program
    registers := List.replicate 16 0
    address_register := 0
    stack := []
    delay_timer := 0
    sound_timer := 0
    program_counter := 0x200 }

/-- The fetch step of `run`: read `memory[pc]` and `memory[pc+1]`; `none`
models the Rust index-out-of-bounds abort when `pc + 1` (or `pc`) is not a
valid memory address. -/
def fetch (s : System) : Option (Nat × Nat) := do
  let first_byte ← s.memory.get? s.program_counter
  let second_byte ← s.memory.get? (s.program_counter + 1)
  pure (first_byte, second_byte)

/-- One iteration of the `Dump` loop: `to_register = address_register as u8`,
write register `i`'s value to register `to_register`, increment the address
register. -/
def dumpStep (s : System) (i : Nat) : Option System := do
  let to_register := s.address_register % 256
  let value ← get_register s i
  let s ← set_register s to_register value
  pure { s with address_register := wrap16 (s.address_register + 1) }

/-- The `for i in 0..(register + 1)` loop of `Dump`, iterating `count`
times starting at index `i`. -/
def dumpLoop (s : System) (i : Nat) : Nat → Option System
  | 0 => some s
  | count + 1 => do
    let s ← dumpStep s i
    dumpLoop s (i + 1) count

/-- One iteration of the `Load` loop: `from_register = address_register as u8`,
read register `from_register`'s value into register `i`, increment the
address register. -/
def loadStep (s : System) (i : Nat) : Option System := do
  let from_register := s.address_register % 256
  let value ← get_register s from_register
  let s ← set_register s i value
  pure { s with address_register := wrap16 (s.address_register + 1) }

/-- The `for i in 0..(register + 1)` loop of `Load`. -/
def loadLoop (s : System) (i : Nat) : Nat → Option System
  | 0 => some s
  | count + 1 => do
    let s ← loadStep s i
    loadLoop s (i + 1) count

/-- Rust `fn process_opcode(&mut self, opcode)`: the per-opcode state
transition, arm for arm. `none` models a Rust abort inside the arm. -/
def process_opcode (s : System) : Opcode → Option System
  | .Call _ =>
    some { s with program_counter := wrap16 (s.program_counter + WORD_SIZE) }
  | .Clear =>
    some { s with program_counter := wrap16 (s.program_counter + WORD_SIZE) }
  | .Return =>
    match s.stack with
    | address :: rest =>
      some { s with program_counter := address, stack := rest }
    | [] =>
      some { s with program_counter := wrap16 (s.program_counter + WORD_SIZE) }
  | .Goto address =>
    some { s with program_counter := address }
  | .CallFunction address =>
    some { s with stack := s.program_counter :: s.stack,
                  program_counter := address }
  | .SkipEq register constant => do
    let v ← get_register s register
    if v = constant then
      pure { s with program_counter := wrap16 (s.program_counter + 2 * WORD_SIZE) }
    else
      pure { s with program_counter := wrap16 (s.program_counter + WORD_SIZE) }
  | .SkipNEq register constant => do
    let v ← get_register s register
    if v ≠ constant then
      pure { s with program_counter := wrap16 (s.program_counter + 2 * WORD_SIZE) }
    else
      pure { s with program_counter := wrap16 (s.program_counter + WORD_SIZE) }
  | .SkipEqReg first second => do
    let v1 ← get_register s first
    let v2 ← get_register s second
    if v1 = v2 then
      pure { s with program_counter := wrap16 (s.program_counter + 2 * WORD_SIZE) }
    else
      pure { s with program_counter := wrap16 (s.program_counter + WORD_SIZE) }
  | .Set register constant => do
    let s ← set_register s register constant
    pure { s with program_counter := wrap16 (s.program_counter + WORD_SIZE) }
  | .AddAssign register constant => do
    let _value ← get_register s register
    let s ← set_register s register (wrap8 (register + constant))
    pure { s with program_counter := wrap16 (s.program_counter + WORD_SIZE) }
  | .Copy toReg fromReg => do
    let from_value ← get_register s fromReg
    let s ← set_register s toReg from_value
    pure { s with program_counter := wrap16 (s.program_counter + WORD_SIZE) }
  | .Or first second => do
    let first_value ← get_register s first
    let second_value ← get_register s second
    let s ← set_register s first (Nat.lor first_value second_value)
    pure { s with program_counter := wrap16 (s.program_counter + WORD_SIZE) }
  | .And first second => do
    let first_value ← get_register s first
    let second_value ← get_register s second
    let s ← set_register s first (Nat.land first_value second_value)
    pure { s with program_counter := wrap16 (s.program_counter + WORD_SIZE) }
  | .Xor first second => do
    let first_value ← get_register s first
    let second_value ← get_register s second
    let s ← set_register s first (Nat.xor first_value second_value)
    pure { s with program_counter := wrap16 (s.program_counter + WORD_SIZE) }
  | .AddAssignReg first second => do
    let first_value ← get_register s first
    let second_value ← get_register s second
    let s ← set_register s first (wrap8 (first_value + second_value))
    let s := set_flag_register s (if carry8 first_value second_value then 1 else 0)
    pure { s with program_counter := wrap16 (s.program_counter + WORD_SIZE) }
  | .SubAssignReg first second => do
    let first_value ← get_register s first
    let second_value ← get_register s second
    let s ← set_register s first (sub8 first_value second_value)
    let s := set_flag_register s (if borrow8 first_value second_value then 1 else 0)
    pure { s with program_counter := wrap16 (s.program_counter + WORD_SIZE) }
  | .ShiftRight first second => do
    let original_value ← get_register s second
    let lowest_bit := Nat.land original_value 0x1
    let value := original_value / 2
    let s ← set_register s first value
    let s ← set_register s second value
    let s := set_flag_register s lowest_bit
    pure { s with program_counter := wrap16 (s.program_counter + WORD_SIZE) }
  | .Subtract first second => do
    let first_value ← get_register s first
    let second_value ← get_register s second
    let s ← set_register s first (sub8 second_value first_value)
    let s := set_flag_register s (if borrow8 second_value first_value then 1 else 0)
    pure { s with program_counter := wrap16 (s.program_counter + WORD_SIZE) }
  | .ShiftLeft first second => do
    let original_value ← get_register s second
    let highest_bit := Nat.land original_value 0x8
    let value := wrap8 (original_value * 2)
    let s ← set_register s first value
    let s ← set_register s second value
    let s := set_flag_register s highest_bit
    pure { s with program_counter := wrap16 (s.program_counter + WORD_SIZE) }
  | .SkipNEqReg first second => do
    let v1 ← get_register s first
    let v2 ← get_register s second
    if v1 ≠ v2 then
      pure { s with program_counter := wrap16 (s.program_counter + 2 * WORD_SIZE) }
    else
      pure { s with program_counter := wrap16 (s.program_counter + WORD_SIZE) }
  | .SetAddressReg address =>
    some { s with address_register := address,
                  program_counter := wrap16 (s.program_counter + WORD_SIZE) }
  | .JumpOffset _ => do
    let v ← get_register s 0x0
    pure { s with program_counter := wrap16 (v + s.address_register) }
  | .SetRand _ _ =>
    some { s with program_counter := wrap16 (s.program_counter + WORD_SIZE) }
  | .Draw _ _ _ =>
    some { s with program_counter := wrap16 (s.program_counter + WORD_SIZE) }
  | .SkipKeyPress _ =>
    some s
  | .SkipNoKeyPress _ =>
    some s
  | .StoreDelayTimer register => do
    let delay := s.delay_timer
    let s ← set_register s register delay
    pure { s with program_counter := wrap16 (s.program_counter + WORD_SIZE) }
  | .StoreKeypress _ =>
    some { s with program_counter := wrap16 (s.program_counter + WORD_SIZE) }
  | .SetDelayTimer register => do
    let v ← get_register s register
    pure { s with delay_timer := v,
                  program_counter := wrap16 (s.program_counter + WORD_SIZE) }
  | .SetSoundTimer register => do
    let v ← get_register s register
    pure { s with sound_timer := v,
                  program_counter := wrap16 (s.program_counter + WORD_SIZE) }
  | .IncrementAddressReg register => do
    let v ← get_register s register
    pure { s with address_register := wrap16 (s.address_register + v),
                  program_counter := wrap16 (s.program_counter + WORD_SIZE) }
  | .StoreSpriteAddress _ =>
    some { s with program_counter := wrap16 (s.program_counter + WORD_SIZE) }
  | .BinaryCodedDecimal _ =>
    some { s with program_counter := wrap16 (s.program_counter + WORD_SIZE) }
  | .Dump register => do
    let s ← dumpLoop s 0 (register + 1)
    pure { s with program_counter := wrap16 (s.program_counter + WORD_SIZE) }
  | .Load register => do
    let s ← loadLoop s 0 (register + 1)
    pure { s with program_counter := wrap16 (s.program_counter + WORD_SIZE) }

/-- Rust `fn tick(&mut self, rate)`: the elapsed wall-clock seconds since
the last sample (passed explicitly here) are reduced modulo `rate` and cast
to `u8`; each timer that is strictly positive is decremented by that amount
with a plain `u8` `-=`, modelled as wraparound modulo 256 (a debug build
aborts on the same underflow; neither clamps at zero). -/
def tick (s : System) (rate elapsedSecs : Nat) : System :=
  let elapsed := (elapsedSecs % rate) % 256
  let s :=
    if 0 < s.delay_timer then
      { s with delay_timer := sub8 s.delay_timer elapsed }
    else s
  if 0 < s.sound_timer then
    { s with sound_timer := sub8 s.sound_timer elapsed }
  else s

/-! ### Concrete machine states used by the claim theorems -/

/-- A fresh machine with register 0 holding 5 (as after `Set(0,5)`). -/
def C4state : System := { System.new [] with registers := 5 :: List.replicate 15 0 }

/-- The fresh machine after `Goto 0xFFF`: program counter at the last
memory address. -/
def C5state : System := { System.new [] with program_counter := 4095 }

/-- A fresh machine whose address register is 16 (as after
`SetAddressReg 16`). -/
def C6state : System := { System.new [] with address_register := 16 }

/-- A fresh machine with register 15 holding 250 and register 0 holding 10. -/
def C7cstate : System :=
  { System.new [] with registers := [10, 0, 0, 0, 0, 0, 0, 0, 0, 0, 0, 0, 0, 0, 0, 250] }

/-- A fresh machine with register 0 holding 250 and register 1 holding 10
(as after `Set(0,250)`; `Set(1,10)`). -/
def C7wstate : System :=
  { System.new [] with registers := 250 :: 10 :: List.replicate 14 0 }

/-! ### Helper lemmas -/

/-- `writeProgram` never changes the length of the memory array. -/
theorem writeProgram_length (prog : List Nat) :
    ∀ (memory : List Nat) (ca : Nat),
      (writeProgram memory ca prog).length = memory.length := by
  induction prog with
  | nil => intro memory ca; rfl
  | cons byte rest ih =>
    intro memory ca
    simp only [writeProgram]
    split
    · rfl
    · rw [ih, List.length_set]

/-- `writeProgram` leaves every cell below the start address untouched. -/
theorem writeProgram_get?_lt (prog : List Nat) :
    ∀ (memory : List Nat) (ca a : Nat), a < ca →
      (writeProgram memory ca prog).get? a = memory.get? a := by
  induction prog with
  | nil => intro memory ca a _; rfl
  | cons byte rest ih =>
    intro memory ca a hlt
    simp only [writeProgram]
    split
    · rfl
    · rw [ih _ _ _ (Nat.lt_succ_of_lt hlt), List.get?_eq_getElem?,
        List.get?_eq_getElem?, List.getElem?_set_ne (ne_of_gt hlt)]

/-- `writeProgram` copies the program bytes into the written region. -/
theorem writeProgram_get?_region (prog : List Nat) :
    ∀ (memory : List Nat) (ca i : Nat), i < prog.length → ca + i < 0xEA0 →
      ca + i < memory.length →
      (writeProgram memory ca prog).get? (ca + i) = prog.get? i := by
  induction prog with
  | nil => intro memory ca i h _ _; exact absurd h (Nat.not_lt_zero i)
  | cons byte rest ih =>
    intro memory ca i hi hea hmem
    simp only [writeProgram]
    rcases eq_or_ne ca 0xEA0 with heq | hne
    · exfalso; omega
    · rw [if_neg hne]
      cases i with
      | zero =>
        show (writeProgram (memory.set ca byte) (ca + 1) rest).get? ca = some byte
        rw [writeProgram_get?_lt rest _ _ _ (by omega : ca < ca + 1),
          List.get?_eq_getElem?,
          List.getElem?_set_eq_of_lt _ (by omega : ca < memory.length)]
      | succ j =>
        have harr : ca + (j + 1) = (ca + 1) + j := by omega
        rw [harr, ih (memory.set ca byte) (ca + 1) j
          (by simpa using Nat.lt_of_succ_lt_succ (by simpa using hi))
          (by omega) (by rw [List.length_set]; omega)]
        rfl

/-- `writeProgram` leaves every cell at or past the end of the program
untouched. -/
theorem writeProgram_get?_ge (prog : List Nat) :
    ∀ (memory : List Nat) (ca a : Nat), ca + prog.length ≤ a →
      (writeProgram memory ca prog).get? a = memory.get? a := by
  induction prog with
  | nil => intro memory ca a _; rfl
  | cons byte rest ih =>
    intro memory ca a h
    simp only [List.length_cons] at h
    simp only [writeProgram]
    split
    · rfl
    · rw [ih _ _ _ (by omega), List.get?_eq_getElem?, List.get?_eq_getElem?,
        List.getElem?_set_ne (by omega : ca ≠ a)]

/-- `writeProgram` started at or below `0xEA0` never writes at or past
`0xEA0`. -/
theorem writeProgram_get?_high (prog : List Nat) :
    ∀ (memory : List Nat) (ca a : Nat), ca ≤ 0xEA0 → 0xEA0 ≤ a →
      (writeProgram memory ca prog).get? a = memory.get? a := by
  induction prog with
  | nil => intro memory ca a _ _; rfl
  | cons byte rest ih =>
    intro memory ca a hca ha
    simp only [writeProgram]
    rcases eq_or_ne ca 0xEA0 with heq | hne
    · rw [if_pos heq]
    · rw [if_neg hne, ih _ _ _ (by omega) ha, List.get?_eq_getElem?,
        List.get?_eq_getElem?, List.getElem?_set_ne (by omega : ca ≠ a)]

/-- Every in-bounds cell of a replicated list holds the replicated value. -/
theorem replicate_get?_lt (n i v : Nat) (h : i < n) :
    (List.replicate n v).get? i = some v := by
  rw [List.get?_eq_getElem?, List.getElem?_replicate]
  simp [h]

/-- A successful `set_register` only touches the register file. -/
theorem set_register_memory {s t : System} {r v : Nat}
    (h : set_register s r v = some t) : t.memory = s.memory := by
  simp only [set_register] at h
  split at h
  · injection h with h
    subst h
    rfl
  · exact Option.noConfusion h

/-- One `Dump` iteration never touches memory. -/
theorem dumpStep_memory {s t : System} {i : Nat}
    (h : dumpStep s i = some t) : t.memory = s.memory := by
  simp only [dumpStep, bind, Option.bind_eq_some, Option.pure_def,
    Option.some.injEq] at h
  obtain ⟨v, hv, u, hu, h⟩ := h
  subst h
  show u.memory = s.memory
  exact set_register_memory hu

/-- The `Dump` loop never touches memory. -/
theorem dumpLoop_memory {count : Nat} : ∀ {s t : System} {i : Nat},
    dumpLoop s i count = some t → t.memory = s.memory := by
  induction count with
  | zero =>
    intro s t i h
    injection h with h
    subst h
    rfl
  | succ n ih =>
    intro s t i h
    simp only [dumpLoop, bind, Option.bind_eq_some] at h
    obtain ⟨u, hu, h⟩ := h
    exact (ih h).trans (dumpStep_memory hu)

/-- One `Load` iteration never touches memory. -/
theorem loadStep_memory {s t : System} {i : Nat}
    (h : loadStep s i = some t) : t.memory = s.memory := by
  simp only [loadStep, bind, Option.bind_eq_some, Option.pure_def,
    Option.some.injEq] at h
  obtain ⟨v, hv, u, hu, h⟩ := h
  subst h
  show u.memory = s.memory
  exact set_register_memory hu

/-- The `Load` loop never touches memory. -/
theorem loadLoop_memory {count : Nat} : ∀ {s t : System} {i : Nat},
    loadLoop s i count = some t → t.memory = s.memory := by
  induction count with
  | zero =>
    intro s t i h
    injection h with h
    subst h
    rfl
  | succ n ih =>
    intro s t i h
    simp only [loadLoop, bind, Option.bind_eq_some] at h
    obtain ⟨u, hu, h⟩ := h
    exact (ih h).trans (loadStep_memory hu)

/-! ### Claim theorems -/

/-- C1: the claim that `CallFunction(addr)` followed by `Return` restores
the program counter to the pre-call counter plus 2 fails on the code: the
`CallFunction` arm pushes the not-yet-advanced program counter and the
`Return` arm jumps to the popped address without adding 2, so the round
trip from `pc = 0x200` lands back on `0x200` — the `CallFunction`
instruction itself — instead of `0x202`. -/
theorem C1_call_return_lands_on_call :
    ((process_opcode (System.new []) (Opcode.CallFunction 0x300)).bind
      (fun s => process_opcode s Opcode.Return)).map System.program_counter =
      some 0x200 ∧ (0x200 : Nat) ≠ 0x200 + 2 :=
  ⟨rfl, by decide⟩

/-- C2: the claim that the timer step clamps at zero fails on the code: for
`delay_timer = 5` and an elapsed decrement of 10 seconds, the plain `u8`
subtraction yields the wrapped value 251 (and aborts in a debug build)
instead of clamping to 0. -/
theorem C2_tick_underflow_wraps :
    0 < ({ System.new [] with delay_timer := 5 } : System).delay_timer ∧
    (tick { System.new [] with delay_timer := 5 } 60 10).delay_timer = 251 ∧
    (tick { System.new [] with delay_timer := 5 } 60 10).delay_timer ≠ 0 :=
  ⟨by decide, rfl, by decide⟩

/-- C3: the claim that `SkipKeyPress` / `SkipNoKeyPress` advance the
program counter by 2 fails on the code: both arms are empty, so the whole
machine state — the program counter included — is returned unchanged
(`0x200`, not `0x202`). -/
theorem C3_skipkey_pc_frozen :
    process_opcode (System.new []) (Opcode.SkipKeyPress 0) = some (System.new []) ∧
    process_opcode (System.new []) (Opcode.SkipNoKeyPress 3) = some (System.new []) ∧
    (System.new []).program_counter = 0x200 :=
  ⟨rfl, rfl, rfl⟩

/-- C4: the claim that `AddAssign(reg, k)` adds `k` to the register's value
fails on the code: with register 0 holding 5, `AddAssign(0, 3)` stores
`0 + 3 = 3` (the register index plus the constant), not `5 + 3 = 8`. -/
theorem C4_addassign_uses_index :
    get_register C4state 0 = some 5 ∧
    (process_opcode C4state (Opcode.AddAssign 0 3)).bind
      (fun s => s.registers.get? 0) = some 3 ∧
    (3 : Nat) ≠ (5 + 3) % 256 :=
  ⟨rfl, rfl, by decide⟩

/-- C5: the claim that the fetch step never aborts fails on the code: after
`Goto 0xFFF` the program counter is 4095 and fetch reads `memory[4096]`,
an out-of-bounds index into the 4096-byte memory (modelled as `none`),
which in Rust aborts the process. -/
theorem C5_fetch_out_of_bounds :
    process_opcode (System.new []) (Opcode.Goto 0xFFF) = some C5state ∧
    fetch C5state = none := by
  refine ⟨rfl, ?_⟩
  have hlen : (List.replicate 4096 (0 : Nat)).length = 4096 := List.length_replicate _ _
  have h1 : (List.replicate 4096 (0 : Nat)).get? 4096 = none :=
    List.get?_eq_none.2 (le_of_eq hlen)
  have h0 : (List.replicate 4096 (0 : Nat)).get? 4095 = some 0 := by
    rw [List.get?_eq_getElem?, List.getElem?_replicate]
    norm_num
  show (do
    let first_byte ← (List.replicate 4096 (0 : Nat)).get? 4095
    let second_byte ← (List.replicate 4096 (0 : Nat)).get? (4095 + 1)
    pure (first_byte, second_byte) : Option (Nat × Nat)) = none
  rw [show (4095 + 1 = 4096) from rfl, h0, h1]
  rfl

/-- C6: the claim that register indices are validated or truncated into
`[0, 15]` before indexing fails on the code: `get_register` and
`set_register` index the 16-entry register file unchecked (out of bounds
for argument 16, modelled as `none`, i.e. a Rust abort), and `Dump(0)` with
address register 16 writes through `set_register 16` and aborts. -/
theorem C6_unchecked_register_indexing :
    get_register (System.new []) 16 = none ∧
    set_register (System.new []) 16 0 = none ∧
    process_opcode C6state (Opcode.Dump 0) = none :=
  ⟨rfl, rfl, rfl⟩

/-- C7 counterexample: the claim quantifies over every register pair, but
for `a = 15` the flag write lands on register 15 after the sum write, so
with register 15 holding 250 and register 0 holding 10,
`AddAssignReg(15, 0)` leaves register 15 equal to the overflow flag 1, not
to the sum `(250 + 10) % 256 = 4`. -/
theorem C7_addassignreg_counterexample :
    get_register C7cstate 15 = some 250 ∧
    get_register C7cstate 0 = some 10 ∧
    (process_opcode C7cstate (Opcode.AddAssignReg 15 0)).bind
      (fun s' => s'.registers.get? 15) = some 1 ∧
    (1 : Nat) ≠ (250 + 10) % 256 :=
  ⟨rfl, rfl, rfl, by decide⟩

/-- C7 (amended): for every register pair `(a, b)` with `a ≠ 15`,
`AddAssignReg(a, b)` sets register `a` to `(value(a) + value(b)) % 256`
and the flag register (register 15) to 1 exactly when the sum exceeded
8 bits, else 0, and advances the program counter by one instruction width;
when `a = 15` the flag write wins (it happens last), as witnessed by the
counterexample above. The scenario register 0 = 250, register 1 = 10 gives
register 0 = 4 and flag 1 (see the witness). -/
theorem C7_addassignreg_amended (s : System) (a b va vb : Nat)
    (hlen : s.registers.length = 16) (ha : a < 16) (hne : a ≠ 15)
    (hva : get_register s a = some va) (hvb : get_register s b = some vb)
    (hva2 : va < 256) (hvb2 : vb < 256) :
    ∃ s', process_opcode s (Opcode.AddAssignReg a b) = some s' ∧
      s'.registers.get? a = some ((va + vb) % 256) ∧
      s'.registers.get? 15 = some (if 256 ≤ va + vb then 1 else 0) ∧
      s'.program_counter = wrap16 (s.program_counter + WORD_SIZE) := by
  have ha' : a < s.registers.length := by rw [hlen]; exact ha
  have hrun : process_opcode s (Opcode.AddAssignReg a b) =
      some { s with registers := (s.registers.set a (wrap8 (va + vb))).set 15 (if carry8 va vb then 1 else 0), program_counter := wrap16 (s.program_counter + WORD_SIZE) } := by
    simp [process_opcode, hva, hvb, set_register, ha', set_flag_register]
  refine ⟨_, hrun, ?_, ?_, rfl⟩
  · rw [List.get?_eq_getElem?, List.getElem?_set_ne (Ne.symm hne),
      List.getElem?_set_eq_of_lt _ ha']
    simp [wrap8]
  · rw [List.get?_eq_getElem?,
      List.getElem?_set_eq_of_lt _ (by rw [List.length_set, hlen]; norm_num)]
    have hc : (carry8 va vb = true) ↔ (256 ≤ va + vb) := by
      simp [carry8, Nat.mod_eq_of_lt hva2, Nat.mod_eq_of_lt hvb2]
    simp [hc]

/-- C7 witness: the spec's own scenario, register 0 = 250 and
register 1 = 10, run through the amended theorem. -/
theorem C7_addassignreg_witness :
    ∃ s', process_opcode C7wstate (Opcode.AddAssignReg 0 1) = some s' ∧
      s'.registers.get? 0 = some ((250 + 10) % 256) ∧
      s'.registers.get? 15 = some (if 256 ≤ 250 + 10 then 1 else 0) ∧
      s'.program_counter = wrap16 (C7wstate.program_counter + WORD_SIZE) :=
  C7_addassignreg_amended C7wstate 0 1 250 10 rfl (by decide) (by decide)
    rfl rfl (by decide) (by decide)

/-- C8: `System.new` copies exactly `min(length, 0xCA0)` program bytes to
memory starting at `0x200` (bytes at or past offset `0xCA0` are dropped),
zeroes all other memory cells, zeroes the 16 registers and both timers,
and starts with address register 0, an empty stack, and program counter
`0x200`. -/
theorem C8_new_initialization (program : List Nat) :
    (∀ i, i < min program.length 0xCA0 →
      (System.new program).memory.get? (0x200 + i) = program.get? i) ∧
    (∀ a, a < 4096 → a < 0x200 ∨ 0x200 + min program.length 0xCA0 ≤ a →
      (System.new program).memory.get? a = some 0) ∧
    (System.new program).registers = List.replicate 16 0 ∧
    (System.new program).address_register = 0 ∧
    (System.new program).stack = [] ∧
    (System.new program).delay_timer = 0 ∧
    (System.new program).sound_timer = 0 ∧
    (System.new program).program_counter = 0x200 := by
  refine ⟨?_, ?_, rfl, rfl, rfl, rfl, rfl, rfl⟩
  · intro i hi
    show (writeProgram (List.replicate 4096 0) 0x200 program).get? (0x200 + i) =
      program.get? i
    have h1 : i < program.length := lt_of_lt_of_le hi (min_le_left _ _)
    have h2 : i < 0xCA0 := lt_of_lt_of_le hi (min_le_right _ _)
    exact writeProgram_get?_region program _ _ _ h1 (by omega)
      (by rw [List.length_replicate]; omega)
  · intro a ha hcase
    show (writeProgram (List.replicate 4096 0) 0x200 program).get? a = some 0
    rcases hcase with hlo | hhi
    · rw [writeProgram_get?_lt program _ _ _ hlo]
      exact replicate_get?_lt _ _ _ ha
    · rcases le_or_lt program.length 0xCA0 with hle | hgt
      · rw [writeProgram_get?_ge program _ _ _
          (by rw [min_eq_left hle] at hhi; omega)]
        exact replicate_get?_lt _ _ _ ha
      · rw [writeProgram_get?_high program _ _ _ (by norm_num)
          (by rw [min_eq_right (le_of_lt hgt)] at hhi; omega)]
        exact replicate_get?_lt _ _ _ ha

/-- C8 witness: the three-byte program `[7, 8, 9]` lands at
`0x200..0x202`, the rest of memory is zero, and the registers are zeroed. -/
theorem C8_new_initialization_witness :
    (System.new [7, 8, 9]).memory.get? (0x200 + 1) = some 8 ∧
    (System.new [7, 8, 9]).memory.get? 0x300 = some 0 ∧
    (System.new [7, 8, 9]).registers = List.replicate 16 0 := by
  obtain ⟨h1, h2, h3, _⟩ := C8_new_initialization [7, 8, 9]
  exact ⟨(h1 1 (by decide)).trans rfl, h2 0x300 (by decide) (Or.inr (by decide)), h3⟩

/-- C9: `Return` with an empty call stack advances the program counter by
exactly one instruction width and leaves every other field — memory,
registers, address register, timers, stack — unchanged (no abort), and
`Return` with a non-empty stack pops the most recently pushed address into
the program counter. -/
theorem C9_return_semantics (s : System) :
    (s.stack = [] → s.program_counter + WORD_SIZE < 65536 →
      process_opcode s Opcode.Return =
        some { s with program_counter := s.program_counter + WORD_SIZE }) ∧
    (∀ address rest, s.stack = address :: rest →
      process_opcode s Opcode.Return =
        some { s with program_counter := address, stack := rest }) := by
  constructor
  · intro hempty hlt
    simp only [process_opcode, hempty, wrap16]
    rw [Nat.mod_eq_of_lt hlt]
  · intro address rest hcons
    simp only [process_opcode, hcons]

/-- C9 witness: on a fresh machine (empty stack, program counter `0x200`),
`Return` yields program counter `0x202` and changes nothing else. -/
theorem C9_return_semantics_witness :
    process_opcode (System.new []) Opcode.Return =
      some { System.new [] with
        program_counter := (System.new []).program_counter + WORD_SIZE } :=
  (C9_return_semantics (System.new [])).1 rfl (by decide)

/-- C10: no opcode transition ever writes to memory: whenever
`process_opcode` completes, the memory array of the resulting state equals
the memory array of the starting state (Dump and Load traffic only in the
register file). -/
theorem C10_no_memory_writes (s : System) (op : Opcode) (s' : System)
    (h : process_opcode s op = some s') : s'.memory = s.memory := by
  cases op <;>
    simp only [process_opcode, bind, Option.bind_eq_some, Option.pure_def,
      Option.some.injEq] at h
  case Set register constant =>
    obtain ⟨u, hu, h⟩ := h
    subst h
    show u.memory = s.memory
    exact set_register_memory hu
  case AddAssign register constant =>
    obtain ⟨v, hv, u, hu, h⟩ := h
    subst h
    show u.memory = s.memory
    exact set_register_memory hu
  case Copy toReg fromReg =>
    obtain ⟨v, hv, u, hu, h⟩ := h
    subst h
    show u.memory = s.memory
    exact set_register_memory hu
  case Or a b =>
    obtain ⟨v1, h1, v2, h2, u, hu, h⟩ := h
    subst h
    show u.memory = s.memory
    exact set_register_memory hu
  case And a b =>
    obtain ⟨v1, h1, v2, h2, u, hu, h⟩ := h
    subst h
    show u.memory = s.memory
    exact set_register_memory hu
  case Xor a b =>
    obtain ⟨v1, h1, v2, h2, u, hu, h⟩ := h
    subst h
    show u.memory = s.memory
    exact set_register_memory hu
  case AddAssignReg a b =>
    obtain ⟨v1, h1, v2, h2, u, hu, h⟩ := h
    subst h
    show u.memory = s.memory
    exact set_register_memory hu
  case SubAssignReg a b =>
    obtain ⟨v1, h1, v2, h2, u, hu, h⟩ := h
    subst h
    show u.memory = s.memory
    exact set_register_memory hu
  case Subtract a b =>
    obtain ⟨v1, h1, v2, h2, u, hu, h⟩ := h
    subst h
    show u.memory = s.memory
    exact set_register_memory hu
  case ShiftRight a b =>
    obtain ⟨v, hv, u1, hu1, u2, hu2, h⟩ := h
    subst h
    show u2.memory = s.memory
    exact (set_register_memory hu2).trans (set_register_memory hu1)
  case ShiftLeft a b =>
    obtain ⟨v, hv, u1, hu1, u2, hu2, h⟩ := h
    subst h
    show u2.memory = s.memory
    exact (set_register_memory hu2).trans (set_register_memory hu1)
  case StoreDelayTimer register =>
    obtain ⟨u, hu, h⟩ := h
    subst h
    show u.memory = s.memory
    exact set_register_memory hu
  case Dump register =>
    obtain ⟨u, hu, h⟩ := h
    subst h
    show u.memory = s.memory
    exact dumpLoop_memory hu
  case Load register =>
    obtain ⟨u, hu, h⟩ := h
    subst h
    show u.memory = s.memory
    exact loadLoop_memory hu
  all_goals repeat obtain ⟨_, _, h⟩ := h
  all_goals try split at h
  all_goals try injection h with h
  all_goals try subst h
  all_goals rfl

/-- C10 witness: executing `Clear` on a fresh machine leaves memory
unchanged. -/
theorem C10_no_memory_writes_witness :
    ({ System.new [] with
      program_counter := wrap16 ((System.new []).program_counter + WORD_SIZE) } :
        System).memory = (System.new []).memory :=
  C10_no_memory_writes (System.new []) Opcode.Clear
    { System.new [] with
      program_counter := wrap16 ((System.new []).program_counter + WORD_SIZE) }
    rfl

end Alvin
